import Mathlib

/-!
Verification development for the tera-rust-launcher update-synchronization
engine (`src/teralaunch/src-tauri/src/main.rs`).

The Rust code is shallowly embedded as executable Lean definitions:
* machine integers (`u64`, `usize`) become `Nat` (no overflow is reachable in
  the modelled arithmetic);
* `SystemTime` / `Instant` become `Nat` timestamps (milliseconds for
  `Instant`-based durations);
* fallible operations (`Result<T, String>`) become `Except String T`;
* the local filesystem is a function from relative path to an optional
  local-file description, and the persistent hash cache is a function from
  relative path to an optional cache entry (mirroring `HashMap::get`/`insert`);
* the SHA-256 digest is an abstract function `List Nat → String` supplied as a
  parameter (`hashFn`); file contents are byte lists.
-/

namespace TeraLauncher

/-- Mirrors struct `FileInfo` (main.rs): one manifest record with relative
slash-normalized path, hex content hash, size in bytes, and download URL. -/
structure FileInfo where
  path : String
  hash : String
  size : Nat
  url : String
deriving DecidableEq, Repr

/-- Mirrors struct `CachedFileInfo` (main.rs): a persistent-cache entry holding
the last known content hash and the modification time observed when it was
recorded (`SystemTime` modelled as `Nat`). -/
structure CachedFileInfo where
  hash : String
  last_modified : Nat
deriving DecidableEq, Repr

/-- Result of `fs::metadata` on a local file: the optional modification time
(`metadata.modified().ok()`) and the byte length (`metadata.len()`). -/
structure LocalMeta where
  modified : Option Nat
  len : Nat
deriving DecidableEq, Repr

/-- Decidable equality for `Except`, needed so that concrete runs of the
embedded operations can be settled by evaluation. -/
instance {ε α : Type} [DecidableEq ε] [DecidableEq α] : DecidableEq (Except ε α) := fun a b =>
  match a, b with
  | Except.ok x, Except.ok y =>
      if h : x = y then isTrue (by simp [h]) else isFalse (by simp [h])
  | Except.error x, Except.error y =>
      if h : x = y then isTrue (by simp [h]) else isFalse (by simp [h])
  | Except.ok _, Except.error _ => isFalse (by simp)
  | Except.error _, Except.ok _ => isFalse (by simp)

/-- One local file as the diff pass observes it: `meta = none` models
`fs::metadata` failing, and `hashResult` is the outcome of
`calculate_file_hash` on the file (an `IoError` string or the hex digest). -/
structure LocalFile where
  meta : Option LocalMeta
  hashResult : Except String String
deriving DecidableEq, Repr

/-- The local tree under the game path: `none` models `!path.exists()`. -/
abbrev FS := String → Option LocalFile

/-- The in-memory hash cache (`HashMap<String, CachedFileInfo>` keyed by the
manifest-relative path). -/
abbrev Cache := String → Option CachedFileInfo

/-- The empty cache, as produced when `file_cache.json` is absent or fails to
parse (`load_cache_from_disk().unwrap_or_else(|_| HashMap::new())`). -/
def emptyCache : Cache := fun _ => none

/-- An empty local tree (no path exists), as in a fresh installation. -/
def emptyFS : FS := fun _ => none

/-! ## Path filter (`is_ignored`, main.rs lines 132-148) -/

/-- Mirrors `.replace("\\", "/")` on the root-relative path: every backslash
character becomes a forward slash (the Rust pattern is the single backslash
character, so the replacement is a character-wise map). -/
def normalizeRel (s : String) : String :=
  String.mk (s.toList.map fun c => if c = '\\' then '/' else c)

/-- Mirrors `is_ignored` (main.rs lines 132-148), taking the root-relative path
string (the result of `path.strip_prefix(game_path)` converted to `str`): after
slash-normalization, a path with no `/` at all (a file directly at the root) is
ignored, and otherwise the path is ignored when it starts with one of the
configured literal prefixes.  Rust's `str::starts_with` with a string pattern
is character-prefix testing, embedded via `List.isPrefixOf` on the character
lists. -/
def is_ignored (relPath : String) (ignoredPaths : List String) : Bool :=
  let relative_path := normalizeRel relPath
  if relative_path.toList.count '/' = 0 then
    true
  else
    ignoredPaths.any fun ignored_path => ignored_path.toList.isPrefixOf relative_path.toList

/-- The fixed ignore set of `generate_hash_file` (main.rs lines 282-303). -/
def ignoredPathsList : List String :=
  ["$Patch",
   "Binaries/cookies.dat",
   "S1Game/GuildFlagUpload",
   "S1Game/GuildLogoUpload",
   "S1Game/ImageCache",
   "S1Game/Logs",
   "S1Game/Screenshots",
   "S1Game/Config/S1Engine.ini",
   "S1Game/Config/S1Game.ini",
   "S1Game/Config/S1Input.ini",
   "S1Game/Config/S1Lightmass.ini",
   "S1Game/Config/S1Option.ini",
   "S1Game/Config/S1SystemSettings.ini",
   "S1Game/Config/S1TBASettings.ini",
   "S1Game/Config/S1UI.ini",
   "Launcher.exe",
   "local.db",
   "version.ini",
   "unins000.dat",
   "unins000.exe"]

/-! ## Update planner (`get_files_to_update`, main.rs lines 603-765)

The per-record decision ladder of the `filter_map` closure (lines 632-741) is
embedded as `checkEntry`; it reads and writes the cache only at the record's
own path, so it is phrased against the cache entry for that path.  `checkFile`
lifts it back to whole caches and `runDiff` folds it over the manifest in
manifest order (rayon's indexed `collect` preserves the original order). -/

/-- The cache-hit test of main.rs lines 687-694: a hit needs a cache entry for
the path, a readable modification time, a matching recorded modification time
and a recorded hash equal to the server hash. -/
def cacheHit (entry : Option CachedFileInfo) (modified : Option Nat) (serverHash : String) : Bool :=
  match entry, modified with
  | some cached_info, some lm =>
      decide (cached_info.last_modified = lm) && decide (cached_info.hash = serverHash)
  | _, _ => false

/-- The decision ladder of `get_files_to_update` for one manifest record
(main.rs lines 632-741), given the cache entry stored at the record's path:
returns the download decision (`some` = include in the plan) and the cache
entry for that path afterwards.  `now` models `SystemTime::now()` used when the
modification time is unreadable (line 725). -/
def checkEntry (fs : FS) (now : Nat) (entry : Option CachedFileInfo) (r : FileInfo) :
    Option FileInfo × Option CachedFileInfo :=
  let included : FileInfo := { path := r.path, hash := r.hash, size := r.size, url := r.url }
  match fs r.path with
  | none => (some included, entry)
  | some lf =>
    match lf.meta with
    | none => (some included, entry)
    | some meta =>
      if cacheHit entry meta.modified r.hash then
        (none, entry)
      else if meta.len ≠ r.size then
        (some included, entry)
      else
        match lf.hashResult with
        | Except.error _ => (some included, entry)
        | Except.ok local_hash =>
          let newEntry : Option CachedFileInfo :=
            some { hash := local_hash, last_modified := meta.modified.getD now }
          if local_hash ≠ r.hash then (some included, newEntry) else (none, newEntry)

/-- One record of the diff pass acting on the whole cache: the closure only
touches the cache at `r.path` (a `get` and possibly an `insert`), so the
resulting cache agrees with the input cache everywhere else. -/
def checkFile (fs : FS) (now : Nat) (c : Cache) (r : FileInfo) : Option FileInfo × Cache :=
  let res := checkEntry fs now (c r.path) r
  (res.1, fun q => if q = r.path then res.2 else c q)

/-- The diff pass over the manifest records, in manifest order, threading the
shared cache; returns the download plan and the final cache. -/
def runDiff (fs : FS) (now : Nat) : Cache → List FileInfo → List FileInfo × Cache
  | c, [] => ([], c)
  | c, r :: rs =>
    let step := checkFile fs now c r
    let rest := runDiff fs now step.2 rs
    ((match step.1 with
      | some f => f :: rest.1
      | none => rest.1), rest.2)

/-- The spec's completeness condition for one record, written from the spec's
words (not from the code), for refinement comparison: include exactly when the
local file is absent, its metadata is unreadable, its content is unreadable,
its size differs from the remote size, or its content hash differs from the
remote hash. -/
def specInclude (fs : FS) (r : FileInfo) : Bool :=
  match fs r.path with
  | none => true
  | some lf =>
    match lf.meta with
    | none => true
    | some meta =>
      match lf.hashResult with
      | Except.error _ => true
      | Except.ok local_hash => decide (meta.len ≠ r.size) || decide (local_hash ≠ r.hash)

/-- The outer `get_files_to_update` control flow around the diff pass
(main.rs lines 603-765): the cache-file load result is recovered to an empty
cache on error (line 618), the diff pass runs, and the cache-save outcome is
only logged (lines 747-750) — the returned value is always `Ok` of the plan.
The save outcome is passed in as a parameter and the emitted log line models
the `eprintln!`. -/
def getFilesToUpdate (loadResult : Except String Cache) (saveResult : Except String Unit)
    (fs : FS) (now : Nat) (files : List FileInfo) :
    Except String (List FileInfo) × List String :=
  let cache : Cache :=
    match loadResult with
    | Except.ok c => c
    | Except.error _ => emptyCache
  let result := runDiff fs now cache files
  let log : List String :=
    match saveResult with
    | Except.error e => ["Failed to save cache to disk: " ++ e]
    | Except.ok _ => []
  (Except.ok result.1, log)

/-! ## Manifest generator (`generate_hash_file`, main.rs lines 273-389)

The parallel walk (`WalkDir ... par_bridge().try_for_each`) processes each
regular non-ignored file once: it reads the contents, hashes them, pushes a
`FileInfo`, and atomically adds to the `total_size` and `processed_files`
counters.  The atomic `fetch_add` operations linearize, so an arbitrary
interleaving of the workers is an arbitrary permutation of the per-file
steps; the scan is embedded as a fold over the walk entries in an arbitrary
order, and the concurrency theorems quantify over all permutations. -/

/-- One entry of the filesystem walk: its root-relative path (host
separators), whether it is a regular file, and its contents
(`none` models `std::fs::read` failing). -/
structure WalkEntry where
  path : String
  isFile : Bool
  content : Option (List Nat)
deriving DecidableEq, Repr

/-- The processing guard of the walk body (main.rs line 330):
`path.is_file() && !is_ignored(path, ...)`. -/
def entryProcessed (ignoredPaths : List String) (e : WalkEntry) : Bool :=
  e.isFile && !is_ignored e.path ignoredPaths

/-- The shared mutable state of the scan: the two atomic counters
(`processed_files`, `total_size`) and the collected records vector. -/
structure ScanState where
  processedFiles : Nat
  totalSize : Nat
  files : List FileInfo
deriving DecidableEq, Repr

/-- The body of the parallel walk for one entry (main.rs lines 327-363): a
non-file or ignored entry is skipped; otherwise the contents are read (a read
failure aborts the whole `try_for_each`), hashed, a record is pushed, and both
counters are incremented by exactly one file / one file size. -/
def scanStep (hashFn : List Nat → String) (fileServerUrl : String) (ignoredPaths : List String)
    (st : ScanState) (e : WalkEntry) : Except String ScanState :=
  if entryProcessed ignoredPaths e then
    match e.content with
    | none => Except.error "read error"
    | some contents =>
      let relative_path := normalizeRel e.path
      let record : FileInfo :=
        { path := relative_path,
          hash := hashFn contents,
          size := contents.length,
          url := fileServerUrl ++ "/files/" ++ relative_path }
      Except.ok
        { processedFiles := st.processedFiles + 1,
          totalSize := st.totalSize + contents.length,
          files := st.files ++ [record] }
  else
    Except.ok st

/-- The whole scan over a sequence of walk entries (one linearization of the
parallel walk), aborting at the first read error as `try_for_each` does. -/
def generateScan (hashFn : List Nat → String) (fileServerUrl : String)
    (ignoredPaths : List String) : ScanState → List WalkEntry → Except String ScanState
  | st, [] => Except.ok st
  | st, e :: es =>
    match scanStep hashFn fileServerUrl ignoredPaths st e with
    | Except.error err => Except.error err
    | Except.ok st' => generateScan hashFn fileServerUrl ignoredPaths st' es

/-! ## Download orchestrator (`update_file` and `download_all_files`,
main.rs lines 448-599)

Side effects are recorded in an event log: the HTTP GET, the destination-file
creation, the per-chunk writes, every `download_progress` emission, and the
final `download_complete` emission.  `Instant` timestamps are milliseconds. -/

/-- The fields of `ProgressPayload` (main.rs lines 91-101) that are integers in
the source; `progress` (a percentage `f64` used only for display) is omitted,
`speed` is kept as the `u64` it is computed as before the lossless cast to
`f64`, and `elapsed_time` (seconds as `f64`) is kept in milliseconds. -/
structure ProgressPayload where
  fileName : String
  speed : Nat
  downloadedBytes : Nat
  totalBytes : Nat
  totalFiles : Nat
  elapsedMs : Nat
  currentFileIndex : Nat
deriving DecidableEq, Repr

/-- Observable effects of the download orchestrator. -/
inductive DLEvent where
  | netRequest (url : String)
  | fileCreate (path : String)
  | fileWrite (path : String) (bytes : List Nat)
  | downloadProgress (p : ProgressPayload)
  | emitComplete
deriving DecidableEq, Repr

/-- Predicate picking out HTTP requests in an event log. -/
def isNetRequestEv : DLEvent → Bool
  | DLEvent.netRequest _ => true
  | _ => false

/-- Predicate picking out destination-file creations and chunk writes. -/
def isFileEv : DLEvent → Bool
  | DLEvent.fileCreate _ => true
  | DLEvent.fileWrite _ _ => true
  | _ => false

/-- Predicate picking out `download_complete` emissions. -/
def isCompleteEv : DLEvent → Bool
  | DLEvent.emitComplete => true
  | _ => false

/-- The speed computation of main.rs line 492:
`if elapsed.as_secs() > 0 { downloaded / elapsed.as_secs() } else { downloaded }`. -/
def speedOf (downloaded elapsedSecs : Nat) : Nat :=
  if 0 < elapsedSecs then downloaded / elapsedSecs else downloaded

/-- The environment of a download run: the response chunks per URL, each with
the `Instant::now()` (ms) observed after writing it; the optional
`Content-Length`; the `Instant` observed when the terminal event is built; the
`Instant` at which the file's download starts; and the content hash
function. -/
structure DLEnv where
  net : String → List (List Nat × Nat)
  contentLength : String → Option Nat
  startTime : String → Nat
  endTime : String → Nat
  hashFn : List Nat → String

/-- The bytes the server serves for a URL (the concatenation of the response
chunks), which is also what ends up written in the destination file. -/
def servedBytes (env : DLEnv) (url : String) : List Nat :=
  ((env.net url).map Prod.fst).flatten

/-- State of the streaming loop of `update_file` (main.rs lines 477-516):
bytes downloaded so far for this file, the `last_update` instant, and the
events emitted so far (file writes and progress emissions, in order). -/
structure LoopState where
  downloaded : Nat
  lastUpdate : Nat
  events : List DLEvent
deriving DecidableEq, Repr

/-- One iteration of the `while let Some(chunk)` loop (main.rs lines 484-516):
write the chunk, add its length, and when at least 100 ms have passed since
`last_update` or the file is complete, emit a progress event carrying the
guarded instantaneous speed and the running overall total. -/
def loopStep (fileName : String) (fileSize totalSize totalFiles idx downloadedSize startTime : Nat)
    (st : LoopState) (chunk : List Nat × Nat) : LoopState :=
  let downloaded := st.downloaded + chunk.1.length
  let now := chunk.2
  let written := st.events ++ [DLEvent.fileWrite fileName chunk.1]
  if 100 ≤ now - st.lastUpdate ∨ downloaded = fileSize then
    let elapsed := now - startTime
    let speed := speedOf downloaded (elapsed / 1000)
    let payload : ProgressPayload :=
      { fileName := fileName,
        speed := speed,
        downloadedBytes := downloadedSize + downloaded,
        totalBytes := totalSize,
        totalFiles := totalFiles,
        elapsedMs := elapsed,
        currentFileIndex := idx }
    { downloaded := downloaded, lastUpdate := now,
      events := written ++ [DLEvent.downloadProgress payload] }
  else
    { downloaded := downloaded, lastUpdate := st.lastUpdate, events := written }

/-- The whole streaming loop of `update_file` over the response chunks. -/
def downloadLoop (fileName : String)
    (fileSize totalSize totalFiles idx downloadedSize startTime : Nat)
    (chunks : List (List Nat × Nat)) : LoopState :=
  chunks.foldl (loopStep fileName fileSize totalSize totalFiles idx downloadedSize startTime)
    { downloaded := 0, lastUpdate := startTime, events := [] }

/-- Mirrors `update_file` (main.rs lines 448-543): issue the GET, create the
destination file, stream the chunks (emitting throttled progress events),
then hash the written bytes; a digest different from the manifest hash fails
with the hash-mismatch error before any terminal event, otherwise the terminal
100% event (speed 0) is emitted and the byte count is returned. -/
def updateFile (env : DLEnv) (file_info : FileInfo)
    (total_files current_file_index total_size downloaded_size : Nat) :
    Except String Nat × List DLEvent :=
  let chunks := env.net file_info.url
  let file_size := (env.contentLength file_info.url).getD file_info.size
  let start_time := env.startTime file_info.url
  let stF := downloadLoop file_info.path file_size total_size total_files current_file_index
    downloaded_size start_time chunks
  let events := [DLEvent.netRequest file_info.url, DLEvent.fileCreate file_info.path] ++ stF.events
  let downloaded_hash := env.hashFn (servedBytes env file_info.url)
  if downloaded_hash ≠ file_info.hash then
    (Except.error ("Hash mismatch for file: " ++ file_info.path), events)
  else
    let final_payload : ProgressPayload :=
      { fileName := file_info.path,
        speed := 0,
        downloadedBytes := downloaded_size + stF.downloaded,
        totalBytes := total_size,
        totalFiles := total_files,
        elapsedMs := env.endTime file_info.url - start_time,
        currentFileIndex := current_file_index }
    (Except.ok stF.downloaded, events ++ [DLEvent.downloadProgress final_payload])

/-- The sequential `for (index, file_info)` loop of `download_all_files`
(main.rs lines 578-591): each file is handed the 1-based index and the running
`downloaded_size`; the `?` aborts at the first failing file, and the final
`download_complete` is emitted only after the whole plan succeeds. -/
def dlLoop (env : DLEnv) (total_files total_size : Nat) :
    List FileInfo → Nat → Nat → Except String (List Nat) × List DLEvent
  | [], _, _ => (Except.ok [], [DLEvent.emitComplete])
  | file_info :: rest, index, downloaded_size =>
    let r := updateFile env file_info total_files (index + 1) total_size downloaded_size
    match r.1 with
    | Except.error e => (Except.error e, r.2)
    | Except.ok file_size =>
      let tail := dlLoop env total_files total_size rest (index + 1) (downloaded_size + file_size)
      ((match tail.1 with
        | Except.error e => Except.error e
        | Except.ok sizes => Except.ok (file_size :: sizes)), r.2 ++ tail.2)

/-- Mirrors `download_all_files` (main.rs lines 558-599): the total byte count
is computed once from the plan before any download, the empty plan emits
`download_complete` immediately with no per-file work, and otherwise the plan
is consumed strictly sequentially in order. -/
def downloadAllFiles (env : DLEnv) (files_to_update : List FileInfo) :
    Except String (List Nat) × List DLEvent :=
  let total_files := files_to_update.length
  let total_size := (files_to_update.map FileInfo.size).sum
  if total_files = 0 then
    (Except.ok [], [DLEvent.emitComplete])
  else
    dlLoop env total_files total_size files_to_update 0 0

/-! ## Theorems -/

/-- C6: `download_all_files` applied to an empty plan returns `Ok` with an
empty sequence, emits exactly one completion signal (`download_complete`),
performs zero network requests, and writes no files. -/
theorem c6_empty_plan_theorem :
    ∀ env : DLEnv,
      downloadAllFiles env [] = (Except.ok [], [DLEvent.emitComplete])
      ∧ ((downloadAllFiles env []).2.countP isNetRequestEv) = 0
      ∧ ((downloadAllFiles env []).2.countP isFileEv) = 0
      ∧ ((downloadAllFiles env []).2.countP isCompleteEv) = 1 := by
  intro env
  refine ⟨rfl, ?_, ?_, ?_⟩ <;> rfl

/-- C9: when the persistent cache file is absent or fails to parse, the diff
pass behaves exactly as with an empty cache mapping, and the load failure is
never surfaced: the result is `Ok` of the plan computed over the empty
cache. -/
theorem c9_cache_load_failure_theorem :
    ∀ (e : String) (s : Except String Unit) (fs : FS) (now : Nat) (files : List FileInfo),
      getFilesToUpdate (Except.error e) s fs now files
          = getFilesToUpdate (Except.ok emptyCache) s fs now files
      ∧ (getFilesToUpdate (Except.error e) s fs now files).1
          = Except.ok (runDiff fs now emptyCache files).1 := by
  intro e s fs now files
  exact ⟨rfl, rfl⟩

/-- C10: a failure to persist the updated cache at the end of the diff pass is
only logged: `get_files_to_update` still returns `Ok` with the computed plan,
and the returned plan does not depend on the save outcome. -/
theorem c10_cache_save_failure_theorem :
    ∀ (load : Except String Cache) (s1 s2 : Except String Unit) (fs : FS) (now : Nat)
      (files : List FileInfo),
      (getFilesToUpdate load s1 fs now files).1 = (getFilesToUpdate load s2 fs now files).1
      ∧ ∃ plan, (getFilesToUpdate load s1 fs now files).1 = Except.ok plan := by
  intro load s1 s2 fs now files
  exact ⟨rfl, ⟨(runDiff fs now (match load with
    | Except.ok c => c
    | Except.error _ => emptyCache) files).1, rfl⟩⟩

/-- The ignore decision only looks at the slash-normalized relative form. -/
theorem is_ignored_congr {a b : String} (L : List String)
    (h : normalizeRel a = normalizeRel b) : is_ignored a L = is_ignored b L := by
  unfold is_ignored
  rw [h]

/-- Every record collected by the scan either was already present or comes
from a processed (regular, non-ignored) walk entry, whose normalized relative
path it carries. -/
theorem generateScan_files_from (hashFn : List Nat → String) (urlBase : String)
    (L : List String) :
    ∀ (es : List WalkEntry) (st0 st : ScanState),
      generateScan hashFn urlBase L st0 es = Except.ok st →
      ∀ r ∈ st.files, r ∈ st0.files ∨
        ∃ e ∈ es, entryProcessed L e = true ∧ r.path = normalizeRel e.path := by
  intro es
  induction es with
  | nil =>
    intro st0 st h r hr
    cases h
    exact Or.inl hr
  | cons e es ih =>
    intro st0 st h r hr
    by_cases hp : entryProcessed L e = true
    · cases hc : e.content with
      | none =>
        rw [generateScan, scanStep, if_pos hp, hc] at h
        cases h
      | some contents =>
        rw [generateScan, scanStep, if_pos hp, hc] at h
        rcases ih _ _ h r hr with hin | ⟨e', he', hpe', hpath⟩
        · rcases List.mem_append.mp hin with hin0 | hrec
          · exact Or.inl hin0
          · refine Or.inr ⟨e, List.mem_cons_self e es, hp, ?_⟩
            rcases List.mem_singleton.mp hrec with rfl
            rfl
        · exact Or.inr ⟨e', List.mem_cons_of_mem e he', hpe', hpath⟩
    · rw [generateScan, scanStep, if_neg hp] at h
      rcases ih _ _ h r hr with hin | ⟨e', he', hpe', hpath⟩
      · exact Or.inl hin
      · exact Or.inr ⟨e', List.mem_cons_of_mem e he', hpe', hpath⟩

/-- C4: `is_ignored` holds exactly when the root-relative slash-normalized
path contains no `/` (a file directly at the installation root) or starts with
one of the literal prefixes of the fixed ignore set; consequently an ignored
walk entry never yields a record in a generated manifest, regardless of the
file's content. -/
theorem c4_path_filter_theorem :
    (∀ rel : String,
      is_ignored rel ignoredPathsList = true ↔
        ('/' ∉ (normalizeRel rel).toList
          ∨ ∃ ig ∈ ignoredPathsList, ig.toList <+: (normalizeRel rel).toList))
  ∧ (∀ (hashFn : List Nat → String) (urlBase : String) (entries : List WalkEntry)
      (st : ScanState) (e : WalkEntry),
      generateScan hashFn urlBase ignoredPathsList ⟨0, 0, []⟩ entries = Except.ok st →
      e ∈ entries → is_ignored e.path ignoredPathsList = true →
      ∀ r ∈ st.files, r.path ≠ normalizeRel e.path) := by
  constructor
  · intro rel
    unfold is_ignored
    by_cases h0 : (normalizeRel rel).toList.count '/' = 0
    · simp only [h0, if_pos rfl, if_true]
      constructor
      · intro _
        exact Or.inl (List.count_eq_zero.mp h0)
      · intro _
        trivial
    · rw [if_neg h0]
      constructor
      · intro h
        rcases List.any_eq_true.mp h with ⟨ig, hig, hpre⟩
        exact Or.inr ⟨ig, hig, List.isPrefixOf_iff_prefix.mp hpre⟩
      · intro h
        rcases h with hmem | ⟨ig, hig, hpre⟩
        · exact absurd (List.count_eq_zero.mpr hmem) h0
        · exact List.any_eq_true.mpr ⟨ig, hig, List.isPrefixOf_iff_prefix.mpr hpre⟩
  · intro hashFn urlBase entries st e hscan he hign r hr hpath
    rcases generateScan_files_from hashFn urlBase ignoredPathsList entries _ st hscan r hr with
      hin | ⟨e', he', hpe', hpath'⟩
    · simp at hin
    · have hnorm : normalizeRel e'.path = normalizeRel e.path := by
        rw [← hpath', hpath]
      have : is_ignored e'.path ignoredPathsList = true := by
        rw [is_ignored_congr ignoredPathsList hnorm]
        exact hign
      rw [entryProcessed, Bool.and_eq_true, Bool.not_eq_true'] at hpe'
      rw [hpe'.2] at this
      cases this

/-- Concrete walk entries for the C4 witness: an ignored root-level file and a
regular game file. -/
def c4Entries : List WalkEntry :=
  [{ path := "Launcher.exe", isFile := true, content := some [] },
   { path := "S1Game/CookedPC/a.gpk", isFile := true, content := some [1] }]

/-- Witness for C4 at a concrete scan: the ignored root-level `Launcher.exe`
yields no record in the generated manifest. -/
theorem c4_path_filter_witness :
    ∀ r ∈ (ScanState.mk 1 1
      [{ path := "S1Game/CookedPC/a.gpk", hash := "H", size := 1,
         url := "http://s/files/S1Game/CookedPC/a.gpk" }]).files,
      r.path ≠ normalizeRel "Launcher.exe" :=
  c4_path_filter_theorem.2 (fun _ => "H") "http://s" c4Entries _
    { path := "Launcher.exe", isFile := true, content := some [] }
    (by decide) (by decide) (by decide)

/-- Unpacking a successful cache-hit test. -/
theorem cacheHit_eq_true {entry : Option CachedFileInfo} {modified : Option Nat}
    {serverHash : String} (h : cacheHit entry modified serverHash = true) :
    ∃ ci lm, entry = some ci ∧ modified = some lm
      ∧ ci.last_modified = lm ∧ ci.hash = serverHash := by
  cases entry with
  | none => simp [cacheHit] at h
  | some ci =>
    cases modified with
    | none => simp [cacheHit] at h
    | some lm =>
      simp only [cacheHit, Bool.and_eq_true, decide_eq_true_eq] at h
      exact ⟨ci, lm, rfl, rfl, h.1, h.2⟩

/-- The local tree of the C1 counterexample: one file of size 5 whose content
hash is `g`. -/
def c1FS : FS := fun p =>
  if p = "Dir/a" then
    some { meta := some { modified := some 10, len := 5 }, hashResult := Except.ok "g" }
  else none

/-- The cache of the C1 counterexample: a stale entry whose recorded
modification time matches the file but whose hash is the remote hash `h`,
not the file's actual hash. -/
def c1Cache : Cache := fun p =>
  if p = "Dir/a" then some { hash := "h", last_modified := 10 } else none

/-- The remote record of the C1 counterexample: remote hash `h`, size 3. -/
def c1Rec : FileInfo := { path := "Dir/a", hash := "h", size := 3, url := "u" }

/-- C1 as stated is false: with a stale cache entry (matching modification
time, recorded hash equal to the remote hash) over a file whose size (5 vs 3)
and content hash (`g` vs `h`) both differ from the remote record, the
cache-hit shortcut excludes the record from the plan even though the claimed
inclusion condition holds — the shortcut changes the final answer. -/
theorem c1_completeness_counterexample :
    (checkFile c1FS 0 c1Cache c1Rec).1 = none ∧ specInclude c1FS c1Rec = true := by
  decide

/-- C1 (amended): provided every cache entry whose recorded modification time
matches the file's current modification time records the file's true current
content hash, and a local file whose content hash equals the remote hash has
the remote size, a remote record is included in the plan exactly when the
local file is absent, unreadable (metadata or content), size-mismatched, or
hash-mismatched; under these assumptions the cache-hit and size shortcuts do
not change the final answer. -/
theorem c1_completeness_theorem :
    ∀ (fs : FS) (now : Nat) (c : Cache) (r : FileInfo),
      (∀ ci lf meta, c r.path = some ci → fs r.path = some lf → lf.meta = some meta →
        meta.modified = some ci.last_modified → lf.hashResult = Except.ok ci.hash) →
      (∀ lf meta, fs r.path = some lf → lf.meta = some meta →
        lf.hashResult = Except.ok r.hash → meta.len = r.size) →
      (checkFile fs now c r).1.isSome = specInclude fs r := by
  intro fs now c r hcache hsize
  show (checkEntry fs now (c r.path) r).1.isSome = specInclude fs r
  cases hfs : fs r.path with
  | none => simp [checkEntry, specInclude, hfs]
  | some lf =>
    cases hmeta : lf.meta with
    | none => simp [checkEntry, specInclude, hfs, hmeta]
    | some meta =>
      by_cases hhit : cacheHit (c r.path) meta.modified r.hash = true
      · rcases cacheHit_eq_true hhit with ⟨ci, lm, hentry, hmod, hlm, hh⟩
        have hhash : lf.hashResult = Except.ok r.hash := by
          rw [← hh]
          exact hcache ci lf meta hentry hfs hmeta (by rw [hmod, hlm])
        have hlen : meta.len = r.size := hsize lf meta hfs hmeta hhash
        simp [checkEntry, specInclude, hfs, hmeta, hhit, hhash, hlen]
      · by_cases hlen : meta.len = r.size
        · cases hhash : lf.hashResult with
          | error err => simp [checkEntry, specInclude, hfs, hmeta, hhit, hlen, hhash]
          | ok local_hash =>
            by_cases hh : local_hash = r.hash
            · simp [checkEntry, specInclude, hfs, hmeta, hhit, hlen, hhash, hh]
            · simp [checkEntry, specInclude, hfs, hmeta, hhit, hlen, hhash, hh]
        · cases hhash : lf.hashResult with
          | error err => simp [checkEntry, specInclude, hfs, hmeta, hhit, hlen, hhash]
          | ok local_hash => simp [checkEntry, specInclude, hfs, hmeta, hhit, hlen, hhash]

/-- Witness for the amended C1 at a concrete input: an absent local file with
an empty cache is included, matching the spec condition. -/
theorem c1_completeness_witness :
    (checkFile (fun _ => none) 0 emptyCache c1Rec).1.isSome
      = specInclude (fun _ => none) c1Rec :=
  c1_completeness_theorem (fun _ => none) 0 emptyCache c1Rec
    (fun _ _ _ hci _ _ _ => nomatch hci)
    (fun _ _ hlf _ _ => nomatch hlf)

/-- Re-running the decision ladder for a record on the cache entry it just
produced yields the same decision and the same entry: a record excluded stays
excluded (cache hit or re-hash), and a record included is included again with
the same cache warm. -/
theorem checkEntry_idempotent (fs : FS) (now : Nat) (e : Option CachedFileInfo) (r : FileInfo) :
    checkEntry fs now (checkEntry fs now e r).2 r = checkEntry fs now e r := by
  cases hfs : fs r.path with
  | none =>
    have h2 : (checkEntry fs now e r).2 = e := by simp [checkEntry, hfs]
    rw [h2]
  | some lf =>
    cases hmeta : lf.meta with
    | none =>
      have h2 : (checkEntry fs now e r).2 = e := by simp [checkEntry, hfs, hmeta]
      rw [h2]
    | some meta =>
      by_cases hhit : cacheHit e meta.modified r.hash = true
      · have h2 : (checkEntry fs now e r).2 = e := by simp [checkEntry, hfs, hmeta, hhit]
        rw [h2]
      · by_cases hlen : meta.len = r.size
        · cases hhash : lf.hashResult with
          | error err =>
            have h2 : (checkEntry fs now e r).2 = e := by
              simp [checkEntry, hfs, hmeta, hhit, hlen, hhash]
            rw [h2]
          | ok local_hash =>
            rw [Bool.not_eq_true] at hhit
            cases hmod : meta.modified with
            | none =>
              rw [hmod] at hhit
              by_cases hh : local_hash = r.hash
              · have h1 : checkEntry fs now e r = (none, some ⟨local_hash, now⟩) := by
                  simp [checkEntry, hfs, hmeta, hhit, hlen, hhash, hmod, hh]
                rw [h1]
                simp [checkEntry, cacheHit, hfs, hmeta, hlen, hhash, hmod, hh]
              · have h1 : checkEntry fs now e r =
                    (some { path := r.path, hash := r.hash, size := r.size, url := r.url },
                      some ⟨local_hash, now⟩) := by
                  simp [checkEntry, hfs, hmeta, hhit, hlen, hhash, hmod, hh]
                rw [h1]
                simp [checkEntry, cacheHit, hfs, hmeta, hlen, hhash, hmod, hh]
            | some lm =>
              rw [hmod] at hhit
              by_cases hh : local_hash = r.hash
              · have h1 : checkEntry fs now e r = (none, some ⟨local_hash, lm⟩) := by
                  simp [checkEntry, hfs, hmeta, hhit, hlen, hhash, hmod, hh]
                rw [h1]
                simp [checkEntry, cacheHit, hfs, hmeta, hlen, hhash, hmod, hh]
              · have h1 : checkEntry fs now e r =
                    (some { path := r.path, hash := r.hash, size := r.size, url := r.url },
                      some ⟨local_hash, lm⟩) := by
                  simp [checkEntry, hfs, hmeta, hhit, hlen, hhash, hmod, hh]
                rw [h1]
                simp [checkEntry, cacheHit, hfs, hmeta, hlen, hhash, hmod, hh]
        · have h2 : (checkEntry fs now e r).2 = e := by
            simp [checkEntry, hfs, hmeta, hhit, hlen]
          rw [h2]

/-- The diff pass never touches the cache at a path that is not in the
manifest. -/
theorem runDiff_cache_stable (fs : FS) (now : Nat) :
    ∀ (rs : List FileInfo) (c : Cache) (p : String), p ∉ rs.map FileInfo.path →
      (runDiff fs now c rs).2 p = c p := by
  intro rs
  induction rs with
  | nil =>
    intro c p _
    rfl
  | cons r rs ih =>
    intro c p hp
    rw [List.map_cons, List.mem_cons] at hp
    push_neg at hp
    have h1 : (runDiff fs now c (r :: rs)).2 = (runDiff fs now (checkFile fs now c r).2 rs).2 := rfl
    rw [h1, ih _ _ hp.2]
    show (if p = r.path then (checkEntry fs now (c r.path) r).2 else c p) = c p
    rw [if_neg hp.1]

/-- Unfolding equation for `runDiff` on a nonempty manifest. -/
theorem runDiff_cons (fs : FS) (now : Nat) (c : Cache) (r : FileInfo) (rs : List FileInfo) :
    runDiff fs now c (r :: rs) =
      ((match (checkFile fs now c r).1 with
        | some f => f :: (runDiff fs now (checkFile fs now c r).2 rs).1
        | none => (runDiff fs now (checkFile fs now c r).2 rs).1),
        (runDiff fs now (checkFile fs now c r).2 rs).2) := rfl

/-- C3 (amended): when the remote manifest's paths are pairwise distinct,
running the diff pass a second time over an unchanged local tree, starting
from the cache the first run produced, yields exactly the same download plan
as the first run — in particular the second plan is empty precisely when the
first one was. -/
theorem c3_idempotence_theorem :
    ∀ (fs : FS) (now : Nat) (c : Cache) (rs : List FileInfo),
      (rs.map FileInfo.path).Nodup →
      (runDiff fs now (runDiff fs now c rs).2 rs).1 = (runDiff fs now c rs).1 := by
  intro fs now c rs
  induction rs generalizing c with
  | nil =>
    intro _
    rfl
  | cons r rs ih =>
    intro hnd
    rw [List.map_cons, List.nodup_cons] at hnd
    obtain ⟨hnotin, hnd'⟩ := hnd
    have hcF : (runDiff fs now c (r :: rs)).2
        = (runDiff fs now (checkFile fs now c r).2 rs).2 := rfl
    set cF := (runDiff fs now (checkFile fs now c r).2 rs).2 with hcFdef
    have hA : cF r.path = (checkEntry fs now (c r.path) r).2 := by
      rw [hcFdef, runDiff_cache_stable fs now rs _ r.path hnotin]
      show (if r.path = r.path then (checkEntry fs now (c r.path) r).2 else c r.path)
          = (checkEntry fs now (c r.path) r).2
      rw [if_pos rfl]
    have hB : (checkFile fs now cF r).1 = (checkFile fs now c r).1 := by
      show (checkEntry fs now (cF r.path) r).1 = (checkEntry fs now (c r.path) r).1
      rw [hA, checkEntry_idempotent]
    have hC : (checkFile fs now cF r).2 = cF := by
      funext q
      show (if q = r.path then (checkEntry fs now (cF r.path) r).2 else cF q) = cF q
      by_cases hq : q = r.path
      · rw [if_pos hq, hA, checkEntry_idempotent, ← hA, hq]
      · rw [if_neg hq]
    rw [hcF, runDiff_cons fs now cF r rs, runDiff_cons fs now c r rs, hB, hC, hcFdef]
    rw [ih ((checkFile fs now c r).2) hnd']

/-- The single remote record of the C3 counterexample and witness. -/
def c3Rec : FileInfo := { path := "Dir/a", hash := "h", size := 1, url := "u" }

/-- C3 as stated is false: over an empty local tree (a file the diff pass
includes but that nothing downloads between the two runs), the second run of
the diff pass — fed the cache produced by the first — returns the very same
nonempty plan, not the empty one. -/
theorem c3_idempotence_counterexample :
    (runDiff emptyFS 0 (runDiff emptyFS 0 emptyCache [c3Rec]).2 [c3Rec]).1 ≠ [] := by
  decide

/-- Witness for the amended C3 at a concrete input: re-running the diff
pass on the one-record manifest reproduces the first run's plan. -/
theorem c3_idempotence_witness :
    (runDiff emptyFS 0 (runDiff emptyFS 0 emptyCache [c3Rec]).2 [c3Rec]).1
      = (runDiff emptyFS 0 emptyCache [c3Rec]).1 :=
  c3_idempotence_theorem emptyFS 0 emptyCache [c3Rec] (by decide)

/-- When every processed entry is readable, the scan completes and its two
counters advance by exactly the number of processed entries and the exact sum
of their sizes (each entry contributes exactly once). -/
theorem generateScan_counters (hashFn : List Nat → String) (urlBase : String)
    (L : List String) :
    ∀ (es : List WalkEntry) (st0 : ScanState),
      (∀ e ∈ es, entryProcessed L e = true → e.content.isSome) →
      ∃ st, generateScan hashFn urlBase L st0 es = Except.ok st
        ∧ st.processedFiles = st0.processedFiles + (es.filter (entryProcessed L)).length
        ∧ st.totalSize = st0.totalSize
            + ((es.filter (entryProcessed L)).map (fun e => (e.content.getD []).length)).sum := by
  intro es
  induction es with
  | nil =>
    intro st0 _
    exact ⟨st0, rfl, by simp, by simp⟩
  | cons e es ih =>
    intro st0 hread
    by_cases hp : entryProcessed L e = true
    · have hsome : e.content.isSome := hread e (List.mem_cons_self e es) hp
      rcases Option.isSome_iff_exists.mp hsome with ⟨contents, hc⟩
      have hstep : generateScan hashFn urlBase L st0 (e :: es)
          = generateScan hashFn urlBase L
              ⟨st0.processedFiles + 1, st0.totalSize + contents.length,
                st0.files ++ [FileInfo.mk (normalizeRel e.path) (hashFn contents)
                  contents.length (urlBase ++ "/files/" ++ normalizeRel e.path)]⟩ es := by
        rw [generateScan, scanStep, if_pos hp, hc]
      rcases ih _ (fun e' he' => hread e' (List.mem_cons_of_mem e he')) with ⟨st, hok, hpf, hts⟩
      refine ⟨st, by rw [hstep]; exact hok, ?_, ?_⟩
      · rw [hpf, List.filter_cons_of_pos hp, List.length_cons]
        dsimp only
        omega
      · rw [hts, List.filter_cons_of_pos hp, List.map_cons, List.sum_cons, hc]
        simp only [Option.getD_some]
        omega
    · have hstep : generateScan hashFn urlBase L st0 (e :: es)
          = generateScan hashFn urlBase L st0 es := by
        rw [generateScan, scanStep, if_neg hp]
      rcases ih st0 (fun e' he' => hread e' (List.mem_cons_of_mem e he')) with ⟨st, hok, hpf, hts⟩
      refine ⟨st, by rw [hstep]; exact hok, ?_, ?_⟩
      · rw [hpf, List.filter_cons_of_neg hp]
      · rw [hts, List.filter_cons_of_neg hp]

/-- C5: after a manifest scan over a tree whose processed (regular,
non-ignored, readable) files number `N`, the processed-file counter equals
exactly `N` and the total-size counter equals exactly the sum of those files'
sizes, for every interleaving of the parallel workers.  The per-file counter
updates are atomic `fetch_add` operations, so any interleaving linearizes to
some permutation `entries'` of the walk entries; the theorem quantifies over
all of them and states the totals against the original tree `entries`. -/
theorem c5_scan_counters_theorem :
    ∀ (hashFn : List Nat → String) (urlBase : String) (L : List String)
      (entries entries' : List WalkEntry),
      entries'.Perm entries →
      (∀ e ∈ entries, entryProcessed L e = true → e.content.isSome) →
      ∃ st, generateScan hashFn urlBase L ⟨0, 0, []⟩ entries' = Except.ok st
        ∧ st.processedFiles = (entries.filter (entryProcessed L)).length
        ∧ st.totalSize
            = ((entries.filter (entryProcessed L)).map (fun e => (e.content.getD []).length)).sum := by
  intro hashFn urlBase L entries entries' hperm hread
  have hread' : ∀ e ∈ entries', entryProcessed L e = true → e.content.isSome :=
    fun e he => hread e (hperm.mem_iff.mp he)
  rcases generateScan_counters hashFn urlBase L entries' ⟨0, 0, []⟩ hread' with ⟨st, hok, hpf, hts⟩
  have hfil : (entries'.filter (entryProcessed L)).Perm (entries.filter (entryProcessed L)) :=
    hperm.filter (entryProcessed L)
  refine ⟨st, hok, ?_, ?_⟩
  · rw [hpf, hfil.length_eq]
    simp
  · rw [hts, (hfil.map (fun e => (e.content.getD []).length)).sum_eq]
    simp

/-- Concrete walk entries for the C5 witness. -/
def c5Entries : List WalkEntry :=
  [{ path := "S1Game/CookedPC/a.gpk", isFile := true, content := some [1, 2] },
   { path := "S1Game/CookedPC/b.gpk", isFile := true, content := some [3] },
   { path := "S1Game/Logs/x.log", isFile := true, content := some [9, 9, 9] }]

/-- Witness for C5 at a concrete input: scanning a reversed interleaving of a
three-entry tree (two processed files of sizes 2 and 1, one ignored log file)
counts exactly 2 files and 3 bytes. -/
theorem c5_scan_counters_witness :
    ∃ st, generateScan (fun _ => "H") "http://s" ignoredPathsList ⟨0, 0, []⟩ c5Entries.reverse
        = Except.ok st
      ∧ st.processedFiles = (c5Entries.filter (entryProcessed ignoredPathsList)).length
      ∧ st.totalSize
          = ((c5Entries.filter (entryProcessed ignoredPathsList)).map
              (fun e => (e.content.getD []).length)).sum :=
  c5_scan_counters_theorem (fun _ => "H") "http://s" ignoredPathsList c5Entries
    c5Entries.reverse (by decide) (by decide)

/-- Folding the streaming loop never changes the count of events other than
file writes and progress emissions. -/
theorem loopFold_countP (pred : DLEvent → Bool)
    (hw : ∀ path bytes, pred (DLEvent.fileWrite path bytes) = false)
    (hp : ∀ p, pred (DLEvent.downloadProgress p) = false)
    (fileName : String) (fileSize totalSize totalFiles idx ds t0 : Nat) :
    ∀ (chunks : List (List Nat × Nat)) (st : LoopState),
      ((chunks.foldl (loopStep fileName fileSize totalSize totalFiles idx ds t0) st).events.countP
          pred)
        = st.events.countP pred := by
  intro chunks
  induction chunks with
  | nil =>
    intro st
    rfl
  | cons ch chunks ih =>
    intro st
    rw [List.foldl_cons, ih]
    simp only [loopStep]
    split
    · simp [List.countP_append, List.countP_cons, hw, hp]
    · simp [List.countP_append, List.countP_cons, hw]

/-- The streaming loop emits only file writes and progress events. -/
theorem downloadLoop_countP (pred : DLEvent → Bool)
    (hw : ∀ path bytes, pred (DLEvent.fileWrite path bytes) = false)
    (hp : ∀ p, pred (DLEvent.downloadProgress p) = false)
    (fileName : String) (fileSize totalSize totalFiles idx ds t0 : Nat)
    (chunks : List (List Nat × Nat)) :
    ((downloadLoop fileName fileSize totalSize totalFiles idx ds t0 chunks).events.countP pred)
      = 0 := by
  unfold downloadLoop
  rw [loopFold_countP pred hw hp]
  rfl

/-- One `update_file` call performs exactly one HTTP request. -/
theorem updateFile_countP_net (env : DLEnv) (fi : FileInfo) (tf idx ts ds : Nat) :
    ((updateFile env fi tf idx ts ds).2.countP isNetRequestEv) = 1 := by
  simp only [updateFile]
  split <;>
    simp [List.countP_append, List.countP_cons,
      downloadLoop_countP isNetRequestEv (fun _ _ => rfl) (fun _ => rfl), isNetRequestEv]

/-- `update_file` never emits the `download_complete` signal. -/
theorem updateFile_countP_complete (env : DLEnv) (fi : FileInfo) (tf idx ts ds : Nat) :
    ((updateFile env fi tf idx ts ds).2.countP isCompleteEv) = 0 := by
  simp only [updateFile]
  split <;>
    simp [List.countP_append, List.countP_cons,
      downloadLoop_countP isCompleteEv (fun _ _ => rfl) (fun _ => rfl), isCompleteEv]

/-- When the bytes served for a file hash differently from its manifest hash,
`update_file` returns the hash-mismatch error (and no terminal success event
precedes it). -/
theorem updateFile_error (env : DLEnv) (fi : FileInfo) (tf idx ts ds : Nat)
    (h : env.hashFn (servedBytes env fi.url) ≠ fi.hash) :
    (updateFile env fi tf idx ts ds).1
      = Except.error ("Hash mismatch for file: " ++ fi.path) := by
  simp only [updateFile]
  rw [if_pos h]

/-- When the served bytes hash to the manifest hash, `update_file` succeeds
and returns the downloaded byte count. -/
theorem updateFile_ok (env : DLEnv) (fi : FileInfo) (tf idx ts ds : Nat)
    (h : env.hashFn (servedBytes env fi.url) = fi.hash) :
    (updateFile env fi tf idx ts ds).1
      = Except.ok (downloadLoop fi.path ((env.contentLength fi.url).getD fi.size) ts tf idx ds
          (env.startTime fi.url) (env.net fi.url)).downloaded := by
  simp only [updateFile]
  rw [if_neg (by simp [h])]

/-- Unfolding `dlLoop` on a failing head file. -/
theorem dlLoop_cons_error (env : DLEnv) (tf ts : Nat) (fi : FileInfo) (rest : List FileInfo)
    (idx ds : Nat) (e : String)
    (h : (updateFile env fi tf (idx + 1) ts ds).1 = Except.error e) :
    dlLoop env tf ts (fi :: rest) idx ds
      = (Except.error e, (updateFile env fi tf (idx + 1) ts ds).2) := by
  simp only [dlLoop]
  rw [h]

/-- Unfolding `dlLoop` on a succeeding head file. -/
theorem dlLoop_cons_ok (env : DLEnv) (tf ts : Nat) (fi : FileInfo) (rest : List FileInfo)
    (idx ds n : Nat)
    (h : (updateFile env fi tf (idx + 1) ts ds).1 = Except.ok n) :
    dlLoop env tf ts (fi :: rest) idx ds
      = ((match (dlLoop env tf ts rest (idx + 1) (ds + n)).1 with
          | Except.error e => Except.error e
          | Except.ok sizes => Except.ok (n :: sizes)),
         (updateFile env fi tf (idx + 1) ts ds).2
           ++ (dlLoop env tf ts rest (idx + 1) (ds + n)).2) := by
  simp only [dlLoop]
  rw [h]

/-- The sequential download loop is fail-fast: with a succeeding prefix and a
hash-mismatching file after it, the loop returns that file's hash-mismatch
error, performs exactly one HTTP request per file up to and including it, and
never reaches completion. -/
theorem dlLoop_fail (env : DLEnv) (tf ts : Nat) :
    ∀ (pre : List FileInfo) (bad : FileInfo) (post : List FileInfo) (idx ds : Nat),
      (∀ f ∈ pre, env.hashFn (servedBytes env f.url) = f.hash) →
      env.hashFn (servedBytes env bad.url) ≠ bad.hash →
      (dlLoop env tf ts (pre ++ bad :: post) idx ds).1
          = Except.error ("Hash mismatch for file: " ++ bad.path)
      ∧ ((dlLoop env tf ts (pre ++ bad :: post) idx ds).2.countP isNetRequestEv)
          = pre.length + 1
      ∧ ((dlLoop env tf ts (pre ++ bad :: post) idx ds).2.countP isCompleteEv) = 0 := by
  intro pre
  induction pre with
  | nil =>
    intro bad post idx ds _ hbad
    have herr := updateFile_error env bad tf (idx + 1) ts ds hbad
    rw [List.nil_append, dlLoop_cons_error env tf ts bad post idx ds _ herr]
    exact ⟨rfl, by rw [updateFile_countP_net]; rfl, updateFile_countP_complete env bad tf _ ts ds⟩
  | cons f pre ih =>
    intro bad post idx ds hpre hbad
    have hok := updateFile_ok env f tf (idx + 1) ts ds (hpre f (List.mem_cons_self f pre))
    rw [List.cons_append, dlLoop_cons_ok env tf ts f (pre ++ bad :: post) idx ds _ hok]
    rcases ih bad post (idx + 1) _ (fun f' hf' => hpre f' (List.mem_cons_of_mem f hf')) hbad with
      ⟨h1, h2, h3⟩
    refine ⟨?_, ?_, ?_⟩
    · dsimp only
      rw [h1]
    · dsimp only
      rw [List.countP_append, updateFile_countP_net, h2, List.length_cons]
      omega
    · dsimp only
      rw [List.countP_append, updateFile_countP_complete, h3]

/-- C2: if the bytes downloaded for some planned file hash differently from
the manifest-recorded hash (with all earlier plan files downloading cleanly),
`update_file` returns the hash-mismatch error for that file — it is never
reported as successfully downloaded — and `download_all_files` aborts with
that error: exactly one request per file up to and including the failing one
is made (none for any later file) and no completion signal is emitted. -/
theorem c2_hash_mismatch_theorem :
    ∀ (env : DLEnv) (pre post : List FileInfo) (bad : FileInfo) (tf idx ts ds : Nat),
      (∀ f ∈ pre, env.hashFn (servedBytes env f.url) = f.hash) →
      env.hashFn (servedBytes env bad.url) ≠ bad.hash →
      (updateFile env bad tf idx ts ds).1
          = Except.error ("Hash mismatch for file: " ++ bad.path)
      ∧ (downloadAllFiles env (pre ++ bad :: post)).1
          = Except.error ("Hash mismatch for file: " ++ bad.path)
      ∧ ((downloadAllFiles env (pre ++ bad :: post)).2.countP isNetRequestEv) = pre.length + 1
      ∧ ((downloadAllFiles env (pre ++ bad :: post)).2.countP isCompleteEv) = 0 := by
  intro env pre post bad tf idx ts ds hpre hbad
  have hlen : (pre ++ bad :: post).length ≠ 0 := by simp
  have hd : downloadAllFiles env (pre ++ bad :: post)
      = dlLoop env (pre ++ bad :: post).length (((pre ++ bad :: post).map FileInfo.size).sum)
          (pre ++ bad :: post) 0 0 := by
    simp only [downloadAllFiles]
    rw [if_neg hlen]
  rcases dlLoop_fail env (pre ++ bad :: post).length (((pre ++ bad :: post).map FileInfo.size).sum)
    pre bad post 0 0 hpre hbad with ⟨h1, h2, h3⟩
  refine ⟨updateFile_error env bad tf idx ts ds hbad, ?_, ?_, ?_⟩
  · rw [hd]
    exact h1
  · rw [hd]
    exact h2
  · rw [hd]
    exact h3

/-- The download environment of the C2 witness: the server serves one byte
hashing to `X` for every URL. -/
def c2Env : DLEnv :=
  { net := fun _ => [([1], 100)],
    contentLength := fun _ => none,
    startTime := fun _ => 0,
    endTime := fun _ => 200,
    hashFn := fun _ => "X" }

/-- The planned file of the C2 witness, whose manifest hash `H` does not match
the served bytes. -/
def c2Bad : FileInfo := { path := "Dir/a", hash := "H", size := 1, url := "u" }

/-- Witness for C2 at a concrete input: a one-file plan whose served bytes
hash to `X` instead of the recorded `H` fails fast with the hash-mismatch
error. -/
theorem c2_hash_mismatch_witness :
    (updateFile c2Env c2Bad 1 1 1 0).1
        = Except.error ("Hash mismatch for file: " ++ c2Bad.path)
    ∧ (downloadAllFiles c2Env ([] ++ c2Bad :: [])).1
        = Except.error ("Hash mismatch for file: " ++ c2Bad.path)
    ∧ ((downloadAllFiles c2Env ([] ++ c2Bad :: [])).2.countP isNetRequestEv)
        = List.length ([] : List FileInfo) + 1
    ∧ ((downloadAllFiles c2Env ([] ++ c2Bad :: [])).2.countP isCompleteEv) = 0 :=
  c2_hash_mismatch_theorem c2Env [] [] c2Bad 1 1 1 0
    (fun f hf => absurd hf (List.not_mem_nil f)) (by decide)

/-- A record the decision ladder includes is the manifest record itself
(path, remote hash, size and URL are copied verbatim). -/
theorem checkEntry_included (fs : FS) (now : Nat) (e : Option CachedFileInfo) (r : FileInfo)
    (f : FileInfo) (h : (checkEntry fs now e r).1 = some f) : f = r := by
  simp only [checkEntry] at h
  split at h
  · exact (Option.some.inj h).symm
  · split at h
    · exact (Option.some.inj h).symm
    · split at h
      · exact Option.noConfusion h
      · split at h
        · exact (Option.some.inj h).symm
        · split at h
          · exact (Option.some.inj h).symm
          · split at h
            · exact (Option.some.inj h).symm
            · exact Option.noConfusion h

/-- The download plan is an order-preserving sublist of the remote manifest:
parallel evaluation notwithstanding, records appear in the plan in manifest
order. -/
theorem runDiff_sublist (fs : FS) (now : Nat) :
    ∀ (rs : List FileInfo) (c : Cache), List.Sublist (runDiff fs now c rs).1 rs := by
  intro rs
  induction rs with
  | nil =>
    intro c
    exact List.Sublist.refl []
  | cons r rs ih =>
    intro c
    rw [runDiff_cons]
    dsimp only
    cases hstep : (checkFile fs now c r).1 with
    | none => exact List.Sublist.cons r (ih _)
    | some f =>
      have hf : f = r := checkEntry_included fs now (c r.path) r f hstep
      rw [hf]
      exact List.Sublist.cons₂ r (ih _)

/-- Every progress event the streaming loop emits carries the orchestration
total byte count it was handed. -/
theorem loopFold_totalBytes (fileName : String)
    (fileSize totalSize totalFiles idx ds t0 : Nat) :
    ∀ (chunks : List (List Nat × Nat)) (st : LoopState) (p : ProgressPayload),
      DLEvent.downloadProgress p
          ∈ (chunks.foldl (loopStep fileName fileSize totalSize totalFiles idx ds t0) st).events →
      DLEvent.downloadProgress p ∈ st.events ∨ p.totalBytes = totalSize := by
  intro chunks
  induction chunks with
  | nil =>
    intro st p h
    exact Or.inl h
  | cons ch chunks ih =>
    intro st p h
    rw [List.foldl_cons] at h
    rcases ih _ p h with hmem | htot
    · revert hmem
      simp only [loopStep]
      split
      · intro hmem
        rcases List.mem_append.mp hmem with hmem1 | hmem2
        · rcases List.mem_append.mp hmem1 with hmem3 | hmem4
          · exact Or.inl hmem3
          · exact DLEvent.noConfusion (List.mem_singleton.mp hmem4)
        · have heq := List.mem_singleton.mp hmem2
          injection heq with heq2
          rw [heq2]
          exact Or.inr rfl
      · intro hmem
        rcases List.mem_append.mp hmem with hmem3 | hmem4
        · exact Or.inl hmem3
        · exact DLEvent.noConfusion (List.mem_singleton.mp hmem4)
    · exact Or.inr htot

/-- Specialization of `loopFold_totalBytes` to a loop started fresh. -/
theorem downloadLoop_totalBytes (fileName : String)
    (fileSize totalSize totalFiles idx ds t0 : Nat)
    (chunks : List (List Nat × Nat)) (p : ProgressPayload)
    (h : DLEvent.downloadProgress p
      ∈ (downloadLoop fileName fileSize totalSize totalFiles idx ds t0 chunks).events) :
    p.totalBytes = totalSize := by
  rcases loopFold_totalBytes fileName fileSize totalSize totalFiles idx ds t0 chunks _ p h with
    hmem | ht
  · exact absurd hmem (List.not_mem_nil _)
  · exact ht

/-- Every progress event `update_file` emits (throttled or terminal) carries
the total byte count passed by the orchestrator. -/
theorem updateFile_totalBytes (env : DLEnv) (fi : FileInfo) (tf idx ts ds : Nat)
    (p : ProgressPayload)
    (h : DLEvent.downloadProgress p ∈ (updateFile env fi tf idx ts ds).2) :
    p.totalBytes = ts := by
  revert h
  simp only [updateFile]
  split
  · intro h
    rcases List.mem_append.mp h with h1 | h2
    · simp at h1
    · exact downloadLoop_totalBytes fi.path ((env.contentLength fi.url).getD fi.size) ts tf idx
        ds (env.startTime fi.url) (env.net fi.url) p h2
  · intro h
    rcases List.mem_append.mp h with h1 | h2
    · rcases List.mem_append.mp h1 with h3 | h4
      · simp at h3
      · exact downloadLoop_totalBytes fi.path ((env.contentLength fi.url).getD fi.size) ts tf idx
          ds (env.startTime fi.url) (env.net fi.url) p h4
    · have heq := List.mem_singleton.mp h2
      injection heq with heq2
      rw [heq2]

/-- Every progress event the sequential download loop emits carries the
orchestration-level total byte count. -/
theorem dlLoop_totalBytes (env : DLEnv) (tf ts : Nat) :
    ∀ (plan : List FileInfo) (idx ds : Nat) (p : ProgressPayload),
      DLEvent.downloadProgress p ∈ (dlLoop env tf ts plan idx ds).2 →
      p.totalBytes = ts := by
  intro plan
  induction plan with
  | nil =>
    intro idx ds p h
    simp [dlLoop] at h
  | cons fi rest ih =>
    intro idx ds p h
    revert h
    simp only [dlLoop]
    cases hr : (updateFile env fi tf (idx + 1) ts ds).1 with
    | error e =>
      intro h
      exact updateFile_totalBytes env fi tf (idx + 1) ts ds p h
    | ok n =>
      intro h
      rcases List.mem_append.mp h with h1 | h2
      · exact updateFile_totalBytes env fi tf (idx + 1) ts ds p h1
      · exact ih (idx + 1) (ds + n) p h2

/-- The three-record remote manifest of the C7 scenario (sizes 10, 20, 30). -/
def c7Manifest : List FileInfo :=
  [{ path := "Dir/a", hash := "h1", size := 10, url := "u1" },
   { path := "Dir/b", hash := "h2", size := 20, url := "u2" },
   { path := "Dir/c", hash := "h3", size := 30, url := "u3" }]

/-- C7: the download plan lists its records in manifest order (it is an
order-preserving sublist of the remote manifest); the total byte count
`download_all_files` uses is the sum of the plan records' sizes, computed once
before the loop and carried unchanged on every progress event; and an empty
local tree against a 3-file manifest of sizes 10, 20, 30 yields a plan of all
3 files in manifest order with total 60 bytes. -/
theorem c7_plan_order_total_theorem :
    (∀ (fs : FS) (now : Nat) (c : Cache) (rs : List FileInfo),
      List.Sublist (runDiff fs now c rs).1 rs)
    ∧ (∀ (env : DLEnv) (plan : List FileInfo) (p : ProgressPayload),
        DLEvent.downloadProgress p ∈ (downloadAllFiles env plan).2 →
        p.totalBytes = (plan.map FileInfo.size).sum)
    ∧ (runDiff emptyFS 0 emptyCache c7Manifest).1 = c7Manifest
    ∧ (c7Manifest.map FileInfo.size).sum = 60 := by
  refine ⟨fun fs now c rs => runDiff_sublist fs now rs c, ?_, by decide, by decide⟩
  intro env plan p h
  by_cases hlen : plan.length = 0
  · rw [List.length_eq_zero] at hlen
    subst hlen
    simp [downloadAllFiles] at h
  · have hd : downloadAllFiles env plan
        = dlLoop env plan.length ((plan.map FileInfo.size).sum) plan 0 0 := by
      simp only [downloadAllFiles]
      rw [if_neg hlen]
    rw [hd] at h
    exact dlLoop_totalBytes env plan.length ((plan.map FileInfo.size).sum) plan 0 0 p h

/-- The download environment of the C7 witness. -/
def c7Env : DLEnv :=
  { net := fun _ => [([7, 7], 1000)],
    contentLength := fun _ => none,
    startTime := fun _ => 0,
    endTime := fun _ => 2000,
    hashFn := fun _ => "H" }

/-- The planned file of the C7 witness. -/
def c7File : FileInfo := { path := "Dir/a", hash := "H", size := 2, url := "u" }

/-- A progress event emitted while downloading the C7 witness plan. -/
def c7Payload : ProgressPayload :=
  { fileName := "Dir/a", speed := 2, downloadedBytes := 2, totalBytes := 2,
    totalFiles := 1, elapsedMs := 1000, currentFileIndex := 1 }

/-- Witness for C7 at a concrete input: a progress event of a one-file plan
carries exactly the plan's size sum as its total byte count. -/
theorem c7_plan_order_total_witness :
    c7Payload.totalBytes = ([c7File].map FileInfo.size).sum :=
  c7_plan_order_total_theorem.2.1 c7Env [c7File] c7Payload (by decide)

/-- Every progress event the streaming loop emits carries the guarded
instantaneous speed computed from the bytes downloaded so far for the current
file and the whole seconds elapsed since the file's download started. -/
theorem loopFold_speed (fileName : String) (fileSize totalSize totalFiles idx ds t0 : Nat) :
    ∀ (chunks : List (List Nat × Nat)) (st : LoopState) (p : ProgressPayload),
      DLEvent.downloadProgress p
          ∈ (chunks.foldl (loopStep fileName fileSize totalSize totalFiles idx ds t0) st).events →
      DLEvent.downloadProgress p ∈ st.events
        ∨ p.speed = speedOf (p.downloadedBytes - ds) (p.elapsedMs / 1000) := by
  intro chunks
  induction chunks with
  | nil =>
    intro st p h
    exact Or.inl h
  | cons ch chunks ih =>
    intro st p h
    rw [List.foldl_cons] at h
    rcases ih _ p h with hmem | hs
    · revert hmem
      simp only [loopStep]
      split
      · intro hmem
        rcases List.mem_append.mp hmem with hmem1 | hmem2
        · rcases List.mem_append.mp hmem1 with hmem3 | hmem4
          · exact Or.inl hmem3
          · exact DLEvent.noConfusion (List.mem_singleton.mp hmem4)
        · have heq := List.mem_singleton.mp hmem2
          injection heq with heq2
          refine Or.inr ?_
          rw [heq2]
          dsimp only
          rw [Nat.add_sub_cancel_left]
      · intro hmem
        rcases List.mem_append.mp hmem with hmem3 | hmem4
        · exact Or.inl hmem3
        · exact DLEvent.noConfusion (List.mem_singleton.mp hmem4)
    · exact Or.inr hs

/-- C8 (amended): every progress event emitted during `update_file`'s
streaming loop carries an instantaneous speed equal to the bytes downloaded so
far for the current file divided by the whole elapsed seconds since that
file's download started, with the sub-one-second case guarded (no division;
the byte count itself is reported); the additional terminal 100% event emitted
after hash verification reports speed 0 instead. -/
theorem c8_speed_theorem :
    (∀ (fileName : String) (fileSize totalSize totalFiles idx ds t0 : Nat)
       (chunks : List (List Nat × Nat)) (p : ProgressPayload),
      DLEvent.downloadProgress p
          ∈ (downloadLoop fileName fileSize totalSize totalFiles idx ds t0 chunks).events →
      p.speed = speedOf (p.downloadedBytes - ds) (p.elapsedMs / 1000))
    ∧ (∀ (env : DLEnv) (fi : FileInfo) (tf idx ts ds : Nat),
        env.hashFn (servedBytes env fi.url) = fi.hash →
        ∃ p, (updateFile env fi tf idx ts ds).2.getLast? = some (DLEvent.downloadProgress p)
          ∧ p.speed = 0) := by
  constructor
  · intro fileName fileSize totalSize totalFiles idx ds t0 chunks p h
    rcases loopFold_speed fileName fileSize totalSize totalFiles idx ds t0 chunks _ p h with
      hmem | hs
    · exact absurd hmem (List.not_mem_nil _)
    · exact hs
  · intro env fi tf idx ts ds hh
    simp only [updateFile]
    rw [if_neg (by simp [hh])]
    exact ⟨_, List.getLast?_concat _, rfl⟩

/-- The download environment of the C8 counterexample and witness: one 2-byte
chunk arriving 1 second in, terminal event built 2 seconds in, served hash
matching the manifest. -/
def c8Env : DLEnv :=
  { net := fun _ => [([7, 7], 1000)],
    contentLength := fun _ => none,
    startTime := fun _ => 0,
    endTime := fun _ => 2000,
    hashFn := fun _ => "H" }

/-- The file downloaded in the C8 counterexample and witness. -/
def c8File : FileInfo := { path := "Dir/a", hash := "H", size := 2, url := "u" }

/-- C8 as stated is false: the terminal 100% event `update_file` emits after
hash verification carries speed 0 even though 2 bytes were downloaded in 2
elapsed seconds (the claimed quotient is 1) — so not every `download_progress`
event of `update_file` carries the bytes-over-elapsed-seconds speed. -/
theorem c8_speed_counterexample :
    ((updateFile c8Env c8File 1 1 2 0).2.any fun ev =>
      match ev with
      | DLEvent.downloadProgress p =>
          decide (p.speed ≠ speedOf (p.downloadedBytes - 0) (p.elapsedMs / 1000))
      | _ => false) = true := by
  decide

/-- The in-loop progress event of the C8 witness. -/
def c8Payload : ProgressPayload :=
  { fileName := "Dir/a", speed := 2, downloadedBytes := 2, totalBytes := 2,
    totalFiles := 1, elapsedMs := 1000, currentFileIndex := 1 }

/-- Witness for the amended C8 at a concrete input: the in-loop event of a
2-byte download after 1 second carries speed 2 = 2 bytes / 1 s. -/
theorem c8_speed_witness :
    c8Payload.speed = speedOf (c8Payload.downloadedBytes - 0) (c8Payload.elapsedMs / 1000) :=
  c8_speed_theorem.1 "Dir/a" 2 2 1 1 0 0 [([7, 7], 1000)] c8Payload (by decide)

end TeraLauncher
